import Mathlib

/-!
Verification of the `fields_bls12377` quadratic-extension gadget
(`std/algebra/fields_bls12377/e2.go`).

The gadget operates on pairs of circuit variables over the base field and
emits constraints through the frontend API. We embed the witness-level
semantics: circuit variables are elements of a field `F`, the API
operations `Add`, `Sub`, `Mul`, `DivUnchecked` are the corresponding field
operations, `AssertIsEqual` emits an equation (a pair of field elements
that a satisfying witness must make equal), and `NewHint` allocates fresh
witness values supplied by the prover, failing exactly on an arity
mismatch (the Go code panics on that error).

The extension configuration constant `ext.uSquare` is defined outside this
file in the repository; every operation below takes it as the explicit
parameter `uSquare`.
-/

namespace GnarkE2

/-- E2 element in a quadratic extension: two base-field circuit variables
`A0`, `A1`, the coefficients over the basis (1, u). -/
structure E2 (F : Type) where
  A0 : F
  A1 : F
deriving DecidableEq

variable {F : Type} [Field F]

namespace E2

/-- `SetZero`: the element equal to 0. -/
def SetZero : E2 F := ⟨0, 0⟩

/-- `SetOne`: the element equal to 1. -/
def SetOne : E2 F := ⟨1, 0⟩

/-- `assign`: set the coordinates from a slice, `A0 = e1[0]`, `A1 = e1[1]`. -/
def assign (e1 : List F) : E2 F := ⟨e1.getD 0 0, e1.getD 1 0⟩

/-- `Neg`: negates an e2 element, coordinatewise `api.Sub(0, ·)`. -/
def Neg (e1 : E2 F) : E2 F := ⟨0 - e1.A0, 0 - e1.A1⟩

/-- `Add`: adds e2 elements coordinatewise. -/
def Add (e1 e2 : E2 F) : E2 F := ⟨e1.A0 + e2.A0, e1.A1 + e2.A1⟩

/-- `Double`: doubles an e2 element coordinatewise. -/
def Double (e1 : E2 F) : E2 F := ⟨e1.A0 + e1.A0, e1.A1 + e1.A1⟩

/-- `Sub`: subtracts e2 elements coordinatewise. -/
def Sub (e1 e2 : E2 F) : E2 F := ⟨e1.A0 - e2.A0, e1.A1 - e2.A1⟩

/-- `Mul`: the 3-multiplication identity of the source.
`u = (a0+a1)(b0+b1)`, `ac = a0 b0`, `bd = a1 b1`,
`A1 = u - (ac + bd)`, `A0 = ac + bd * uSquare`. -/
def Mul (uSquare : F) (e1 e2 : E2 F) : E2 F :=
  let l1 := e1.A0 + e1.A1
  let l2 := e2.A0 + e2.A1
  let u := l1 * l2
  let ac := e1.A0 * e2.A0
  let bd := e1.A1 * e2.A1
  let l31 := ac + bd
  let a1 := u - l31
  let l41 := bd * uSquare
  let a0 := ac + l41
  ⟨a0, a1⟩

/-- `Square`: the specialized 2-multiplication formula of the source
(algo 22, eprint 2010/354), line by line:
`c0 = x0 + x1`, `c2 = x1 * uSquare + x0`, `c0 = c0 * c2`,
`c2 = 2 x0 x1` (stored in `A1`), `c2 = 2 c2`, `A0 = c0 + c2`. -/
def Square (uSquare : F) (x : E2 F) : E2 F :=
  let c0 := x.A0 + x.A1
  let c2 := x.A1 * uSquare
  let c2a := c2 + x.A0
  let c0a := c0 * c2a
  let c2b := x.A0 * x.A1
  let c2c := c2b + c2b
  let a1 := c2c
  let c2d := c2c + c2c
  let a0 := c0a + c2d
  ⟨a0, a1⟩

/-- `DivByFp`: divides both coordinates by a base-field constant via
`api.DivUnchecked`; at the witness level this is field division, with no
constraint asserting the divisor nonzero. -/
def DivByFp (e1 : E2 F) (c : F) : E2 F := ⟨e1.A0 / c, e1.A1 / c⟩

/-- `MulByFp`: multiplies both coordinates by a base-field constant. -/
def MulByFp (e1 : E2 F) (c : F) : E2 F := ⟨e1.A0 * c, e1.A1 * c⟩

/-- `MulByNonResidue`: multiplies by the imaginary element,
`x := e1.A0; A0 = e1.A1 * uSquare; A1 = x`. -/
def MulByNonResidue (uSquare : F) (e1 : E2 F) : E2 F :=
  let x := e1.A0
  ⟨e1.A1 * uSquare, x⟩

/-- `Conjugate`: `A0 = e1.A0`, `A1 = api.Sub(0, e1.A1)`. -/
def Conjugate (e1 : E2 F) : E2 F := ⟨e1.A0, 0 - e1.A1⟩

/-- `MustBeEqual`: emits one equality constraint per coordinate; a
constraint is a pair of field elements a satisfying witness must equate. -/
def MustBeEqual (e other : E2 F) : List (F × F) :=
  [(e.A0, other.A0), (e.A1, other.A1)]

end E2

/-- A witness assignment satisfies a list of emitted equality constraints
when each pair is actually equal. -/
def constraintsHold (cs : List (F × F)) : Prop := ∀ c ∈ cs, c.1 = c.2

instance instDecConstraintsHold [DecidableEq F] (cs : List (F × F)) :
    Decidable (constraintsHold cs) :=
  inferInstanceAs (Decidable (∀ c ∈ cs, c.1 = c.2))

/-- Arity data of a registered hint function: declared number of inputs
and number of outputs. -/
structure HintInfo where
  nbIn : Nat
  nbOut : Nat

/-- Arity of `InverseE2Hint`: inputs `(x.A0, x.A1)`, outputs the two
coordinates of the inverse. -/
def InverseE2HintInfo : HintInfo := ⟨2, 2⟩

/-- Arity of `DivE2Hint`: inputs `(a.A0, a.A1, b.A0, b.A1)`, outputs the
two coordinates of the quotient. -/
def DivE2HintInfo : HintInfo := ⟨4, 2⟩

/-- Models `api.NewHint`: allocates `nbOutputs` fresh unconstrained
variables whose witness values `w` are supplied by the prover at solve
time; returns a non-nil error (here `none`) exactly on an arity mismatch
between the call and the registered hint function. -/
def newHint (info : HintInfo) (nbOutputs : Nat) (inputs : List F)
    (w : List F) : Option (List F) :=
  if inputs.length = info.nbIn ∧ nbOutputs = info.nbOut ∧
      w.length = nbOutputs then some w else none

namespace E2

/-- `Inverse`: requests the two-output `InverseE2Hint` on
`(e1.A0, e1.A1)`; on a hint error the Go code panics (modelled as `none`);
otherwise assigns `e3` from the hint outputs, constrains
`e3 * e1 == (1,0)` via one extension `Mul` and `MustBeEqual`, and returns
the hint outputs together with the emitted constraints. -/
def Inverse (uSquare : F) (e1 : E2 F) (w : List F) :
    Option (E2 F × List (F × F)) :=
  match newHint InverseE2HintInfo 2 [e1.A0, e1.A1] w with
  | none => none
  | some res =>
    let e3 := assign (res.take 2)
    let one : E2 F := SetOne
    let e3m := Mul uSquare e3 e1
    some (assign (res.take 2), MustBeEqual e3m one)

/-- `DivUnchecked`: requests the two-output `DivE2Hint` on
`(e1.A0, e1.A1, e2.A0, e2.A1)`; on a hint error the Go code panics
(modelled as `none`); otherwise assigns `e3` from the hint outputs,
constrains `e3 * e2 == e1`, and returns the hint outputs together with
the emitted constraints. -/
def DivUnchecked (uSquare : F) (e1 e2 : E2 F) (w : List F) :
    Option (E2 F × List (F × F)) :=
  match newHint DivE2HintInfo 2 [e1.A0, e1.A1, e2.A0, e2.A1] w with
  | none => none
  | some res =>
    let e3 := assign (res.take 2)
    let e3m := Mul uSquare e3 e2
    some (assign (res.take 2), MustBeEqual e3m e1)

end E2

/-- Modelled from the spec: the extension-field configuration constant
`ext.uSquare` is defined outside this file (the spec: a single read-only
base-field constant, fixed per target curve, with `u² = nonResidue`).
The target here is the BLS12-377 tower, whose quadratic extension is
defined by `u² = −5`. -/
def extUSquare : F := -5

/-- Spec-side definition for comparison (from the spec wording of §2.4.3
and §8): schoolbook complex multiplication
`(x0 y0 + nonResidue x1 y1, x0 y1 + x1 y0)`. -/
def schoolbookMul (uSquare : F) (x y : E2 F) : E2 F :=
  ⟨x.A0 * y.A0 + uSquare * (x.A1 * y.A1), x.A0 * y.A1 + x.A1 * y.A0⟩

/-- Modelled from the spec: the out-of-circuit big-integer library
inverse (`bls12377.E2.Inverse` of gnark-crypto, not under src/): the
conjugate-over-norm formula for the quadratic extension, a total function
returning the junk value 0 on the zero element. -/
def libE2Inverse (uSquare : F) (x : E2 F) : E2 F :=
  let n := x.A0 * x.A0 - uSquare * (x.A1 * x.A1)
  ⟨x.A0 * n⁻¹, (0 - x.A1) * n⁻¹⟩

/-- Modelled from the spec: the out-of-circuit big-integer library
product (`bls12377.E2.Mul` of gnark-crypto, not under src/): exact
complex multiplication in the extension. -/
def libE2Mul (uSquare : F) (x y : E2 F) : E2 F :=
  ⟨x.A0 * y.A0 + uSquare * (x.A1 * y.A1), x.A0 * y.A1 + x.A1 * y.A0⟩

/-- `InverseE2Hint`: reads `(a.A0, a.A1)` from the inputs, computes the
out-of-circuit inverse, writes both coordinates to the result slice and
returns a nil error (`none`) unconditionally. -/
def InverseE2Hint (uSquare : F) (inputs : List F) :
    List F × Option String :=
  let a : E2 F := ⟨inputs.getD 0 0, inputs.getD 1 0⟩
  let c := libE2Inverse uSquare a
  ([c.A0, c.A1], none)

/-- `DivE2Hint`: reads `(a, b)` from the inputs, computes `b⁻¹ * a` with
the out-of-circuit library, writes both coordinates to the result slice
and returns a nil error (`none`) unconditionally. -/
def DivE2Hint (uSquare : F) (inputs : List F) :
    List F × Option String :=
  let a : E2 F := ⟨inputs.getD 0 0, inputs.getD 1 0⟩
  let b : E2 F := ⟨inputs.getD 2 0, inputs.getD 3 0⟩
  let c := libE2Mul uSquare (libE2Inverse uSquare b) a
  ([c.A0, c.A1], none)

namespace E2

/-- Execution of `e.Mul(api, *e, *e)` under the worst-case aliasing
discipline: the operands are read through the receiver cell in program
order, so any operand read after a receiver write would observe the new
value. All operand reads in `Mul` occur before the write to `e.A1`. -/
def mulSelfAliased (uSquare : F) (s0 : E2 F) : E2 F :=
  let l1 := s0.A0 + s0.A1
  let l2 := s0.A0 + s0.A1
  let u := l1 * l2
  let ac := s0.A0 * s0.A0
  let bd := s0.A1 * s0.A1
  let l31 := ac + bd
  let s1 : E2 F := ⟨s0.A0, u - l31⟩
  let l41 := bd * uSquare
  let s2 : E2 F := ⟨ac + l41, s1.A1⟩
  s2

/-- Execution of `e.Square(api, *e)` with the operand read through the
receiver cell in program order; all operand reads occur before the write
to `e.A1`. -/
def squareSelfAliased (uSquare : F) (s0 : E2 F) : E2 F :=
  let c0 := s0.A0 + s0.A1
  let c2 := s0.A1 * uSquare
  let c2a := c2 + s0.A0
  let c0a := c0 * c2a
  let c2b := s0.A0 * s0.A1
  let c2c := c2b + c2b
  let s1 : E2 F := ⟨s0.A0, c2c⟩
  let c2d := c2c + c2c
  let s2 : E2 F := ⟨c0a + c2d, s1.A1⟩
  s2

/-- Execution of `e.MulByNonResidue(api, *e)` with the operand read
through the receiver cell in program order: the source saves `e1.A0`
into the temporary `x` before overwriting `e.A0`, so the later write of
`e.A1` uses the saved value, not the overwritten cell. -/
def mulByNonResidueSelfAliased (uSquare : F) (s0 : E2 F) : E2 F :=
  let x := s0.A0
  let s1 : E2 F := ⟨s0.A1 * uSquare, s0.A1⟩
  let s2 : E2 F := ⟨s1.A0, x⟩
  s2

end E2

/-! Helper lemmas shared across the development. -/

/-- Two extension elements with equal coordinates are equal. -/
theorem E2.eq_of_coords {a b : E2 F} (h0 : a.A0 = b.A0)
    (h1 : a.A1 = b.A1) : a = b := by
  cases a; cases b; cases h0; cases h1; rfl

/-- Equation lemma: when the hint request succeeds, `Inverse` returns the
assigned hint outputs and the constraints of `hint * e1 == (1,0)`. -/
theorem E2.Inverse_eq_some (uSquare : F) (e1 : E2 F) (w res : List F)
    (h : newHint InverseE2HintInfo 2 [e1.A0, e1.A1] w = some res) :
    E2.Inverse uSquare e1 w =
      some (E2.assign (res.take 2),
        E2.MustBeEqual (E2.Mul uSquare (E2.assign (res.take 2)) e1)
          E2.SetOne) := by
  unfold E2.Inverse
  rw [h]

/-- Equation lemma: when the hint request fails, `Inverse` aborts. -/
theorem E2.Inverse_eq_none (uSquare : F) (e1 : E2 F) (w : List F)
    (h : newHint InverseE2HintInfo 2 [e1.A0, e1.A1] w = none) :
    E2.Inverse uSquare e1 w = none := by
  unfold E2.Inverse
  rw [h]

/-- Equation lemma: when the hint request succeeds, `DivUnchecked`
returns the assigned hint outputs and the constraints of
`hint * e2 == e1`. -/
theorem E2.DivUnchecked_eq_some (uSquare : F) (e1 e2 : E2 F)
    (w res : List F)
    (h : newHint DivE2HintInfo 2 [e1.A0, e1.A1, e2.A0, e2.A1] w =
      some res) :
    E2.DivUnchecked uSquare e1 e2 w =
      some (E2.assign (res.take 2),
        E2.MustBeEqual (E2.Mul uSquare (E2.assign (res.take 2)) e2)
          e1) := by
  unfold E2.DivUnchecked
  rw [h]

/-- Equation lemma: when the hint request fails, `DivUnchecked`
aborts. -/
theorem E2.DivUnchecked_eq_none (uSquare : F) (e1 e2 : E2 F)
    (w : List F)
    (h : newHint DivE2HintInfo 2 [e1.A0, e1.A1, e2.A0, e2.A1] w =
      none) :
    E2.DivUnchecked uSquare e1 e2 w = none := by
  unfold E2.DivUnchecked
  rw [h]

instance fact_prime_13 : Fact (Nat.Prime 13) := ⟨by norm_num⟩

/-! The claims. -/

/-- Claim C1: for every extension element `x`, `Square x` returns the
same pair of coefficients as `Mul x x` at the configured non-residue
constant `ext.uSquare = −5`, even though `Square` uses the specialized
2-multiplication formula whose final step adds `4 * x.A0 * x.A1` to the
cross product. -/
theorem square_eq_mul_self (x : E2 F) :
    E2.Square (extUSquare : F) x = E2.Mul extUSquare x x := by
  cases x with
  | mk a0 a1 =>
    simp only [E2.Square, E2.Mul, extUSquare, E2.mk.injEq]
    constructor <;> ring

/-- Claim C2: for all extension elements `x`, `y`, the 3-multiplication
identity computed by `Mul` equals schoolbook complex multiplication
`(x0 y0 + nonResidue x1 y1, x0 y1 + x1 y0)` in the base field, for every
non-residue. -/
theorem mul_eq_schoolbook (uSquare : F) (x y : E2 F) :
    E2.Mul uSquare x y = schoolbookMul uSquare x y := by
  cases x with
  | mk a0 a1 =>
    cases y with
    | mk b0 b1 =>
      simp only [E2.Mul, schoolbookMul, E2.mk.injEq]
      constructor <;> ring

/-- Claim C3: `Inverse` requests a two-output hint on `(x.A0, x.A1)` and
emits the constraints asserting `hinted * x == (1,0)`; hence for every
nonzero `x`, every witness assignment satisfying the emitted constraints
makes the returned element the multiplicative inverse of `x`:
`Mul (Inverse x) x == (1,0)`. -/
theorem inverse_constraints_sound (uSquare : F) (x : E2 F) (w : List F)
    (out : E2 F) (cs : List (F × F)) (hx : x ≠ E2.SetZero)
    (hbuild : E2.Inverse uSquare x w = some (out, cs))
    (hcs : constraintsHold cs) :
    E2.Mul uSquare out x = E2.SetOne := by
  cases hres : newHint InverseE2HintInfo 2 [x.A0, x.A1] w with
  | none =>
    rw [E2.Inverse_eq_none uSquare x w hres] at hbuild
    exact absurd hbuild (by simp)
  | some res =>
    rw [E2.Inverse_eq_some uSquare x w res hres] at hbuild
    simp only [Option.some.injEq, Prod.mk.injEq] at hbuild
    obtain ⟨hout, hcseq⟩ := hbuild
    subst hout
    subst hcseq
    have h0 := hcs ((E2.Mul uSquare (E2.assign (res.take 2)) x).A0,
      (E2.SetOne : E2 F).A0) (by simp [E2.MustBeEqual])
    have h1 := hcs ((E2.Mul uSquare (E2.assign (res.take 2)) x).A1,
      (E2.SetOne : E2 F).A1) (by simp [E2.MustBeEqual])
    exact E2.eq_of_coords h0 h1

/-- Witness for C3 in the field with 13 elements with non-residue −5:
the hinted values `(8, 1)` satisfy the emitted constraints for
`x = (2, 3)`, and indeed `(8,1) * (2,3) = (1,0)`. -/
theorem inverse_constraints_sound_witness :
    E2.Mul (-5 : ZMod 13) (⟨8, 1⟩ : E2 (ZMod 13)) ⟨2, 3⟩ =
      E2.SetOne :=
  inverse_constraints_sound (-5) ⟨2, 3⟩ [8, 1] ⟨8, 1⟩
    [(1, 1), (0, 0)] (by decide) (by decide) (by decide)

/-- Claim C4: `DivUnchecked` requests a two-output hint on
`(a.A0, a.A1, b.A0, b.A1)` and emits the constraints asserting
`hinted * b == a`; hence for every `a` and nonzero `b`, every witness
assignment satisfying the emitted constraints makes the returned element
`q` satisfy `Mul q b == a`. -/
theorem div_constraints_sound (uSquare : F) (a b : E2 F) (w : List F)
    (out : E2 F) (cs : List (F × F)) (hb : b ≠ E2.SetZero)
    (hbuild : E2.DivUnchecked uSquare a b w = some (out, cs))
    (hcs : constraintsHold cs) :
    E2.Mul uSquare out b = a := by
  cases hres : newHint DivE2HintInfo 2 [a.A0, a.A1, b.A0, b.A1] w with
  | none =>
    rw [E2.DivUnchecked_eq_none uSquare a b w hres] at hbuild
    exact absurd hbuild (by simp)
  | some res =>
    rw [E2.DivUnchecked_eq_some uSquare a b w res hres] at hbuild
    simp only [Option.some.injEq, Prod.mk.injEq] at hbuild
    obtain ⟨hout, hcseq⟩ := hbuild
    subst hout
    subst hcseq
    have h0 := hcs ((E2.Mul uSquare (E2.assign (res.take 2)) b).A0,
      a.A0) (by simp [E2.MustBeEqual])
    have h1 := hcs ((E2.Mul uSquare (E2.assign (res.take 2)) b).A1,
      a.A1) (by simp [E2.MustBeEqual])
    exact E2.eq_of_coords h0 h1

/-- Witness for C4 in the field with 13 elements: dividing `a = (2,3)`
by `b = (2,3)` with hinted quotient `(1,0)` satisfies the emitted
constraints, and indeed `(1,0) * (2,3) = (2,3)`. -/
theorem div_constraints_sound_witness :
    E2.Mul (-5 : ZMod 13) (⟨1, 0⟩ : E2 (ZMod 13)) ⟨2, 3⟩ =
      (⟨2, 3⟩ : E2 (ZMod 13)) :=
  div_constraints_sound (-5) ⟨2, 3⟩ ⟨2, 3⟩ [1, 0] ⟨1, 0⟩
    [(2, 2), (3, 3)] (by decide) (by decide) (by decide)

/-- Claim C5: if the hint request made by `Inverse` or `DivUnchecked`
fails (the builder reports an invalid number of hint inputs or outputs),
circuit construction aborts immediately (the Go code panics, modelled as
`none`); the operation never continues with truncated, padded or partial
hint outputs. -/
theorem hint_failure_aborts (uSquare : F) (x a b : E2 F) (w v : List F)
    (h1 : newHint InverseE2HintInfo 2 [x.A0, x.A1] w = none)
    (h2 : newHint DivE2HintInfo 2 [a.A0, a.A1, b.A0, b.A1] v = none) :
    E2.Inverse uSquare x w = none ∧
      E2.DivUnchecked uSquare a b v = none :=
  ⟨E2.Inverse_eq_none uSquare x w h1,
    E2.DivUnchecked_eq_none uSquare a b v h2⟩

/-- Witness for C5: a hint answer of the wrong arity (one value instead
of two) makes the hint request fail and both gadgets abort. -/
theorem hint_failure_aborts_witness :
    E2.Inverse (-5 : ZMod 13) ⟨1, 0⟩ [1] = none ∧
      E2.DivUnchecked (-5 : ZMod 13) ⟨1, 0⟩ ⟨1, 0⟩ [1] = none :=
  hint_failure_aborts (-5) ⟨1, 0⟩ ⟨1, 0⟩ ⟨1, 0⟩ [1] [1]
    (by decide) (by decide)

/-- Claim C6: for every extension element `x`, `MulByNonResidue x`
returns `(x.A1 * nonResidue, x.A0)`, which equals the full extension
multiplication `Mul x (0, 1)` by the basis element `u`, for every
non-residue. -/
theorem mulByNonResidue_eq_mul_u (uSquare : F) (x : E2 F) :
    E2.MulByNonResidue uSquare x = E2.Mul uSquare x ⟨0, 1⟩ := by
  cases x with
  | mk a0 a1 =>
    simp only [E2.MulByNonResidue, E2.Mul, E2.mk.injEq]
    constructor <;> ring

/-- Claim C7: `Conjugate x` returns `(x.A0, −x.A1)` — it fixes the first
coordinate and negates the second — and is self-inverse. -/
theorem conjugate_fixes_and_involutive (x : E2 F) :
    E2.Conjugate x = ⟨x.A0, -x.A1⟩ ∧
      E2.Conjugate (E2.Conjugate x) = x := by
  constructor
  · simp [E2.Conjugate]
  · cases x
    simp [E2.Conjugate]

/-- Claim C8: `DivByFp` divides both coordinates by the base-field
constant `c` using unchecked division (no constraint asserting
`c ≠ 0` is emitted); under the precondition `c ≠ 0`,
`MulByFp (DivByFp x c) c == x` for every `x`. -/
theorem divByFp_unchecked_roundtrip (x : E2 F) (c : F) (hc : c ≠ 0) :
    E2.DivByFp x c = ⟨x.A0 / c, x.A1 / c⟩ ∧
      E2.MulByFp (E2.DivByFp x c) c = x := by
  refine ⟨rfl, ?_⟩
  simp only [E2.DivByFp, E2.MulByFp]
  exact E2.eq_of_coords (div_mul_cancel₀ _ hc) (div_mul_cancel₀ _ hc)

/-- Witness for C8 in the field with 13 elements: dividing `(3,4)` by
the nonzero constant 2 and multiplying back yields `(3,4)`. -/
theorem divByFp_unchecked_roundtrip_witness :
    E2.DivByFp (⟨3, 4⟩ : E2 (ZMod 13)) 2 =
        ⟨(⟨3, 4⟩ : E2 (ZMod 13)).A0 / 2,
          (⟨3, 4⟩ : E2 (ZMod 13)).A1 / 2⟩ ∧
      E2.MulByFp (E2.DivByFp (⟨3, 4⟩ : E2 (ZMod 13)) 2) 2 =
        (⟨3, 4⟩ : E2 (ZMod 13)) :=
  divByFp_unchecked_roundtrip ⟨3, 4⟩ 2 (by decide)

/-- Claim C9: the gadget operations are aliasing-safe: executing
`e.Mul(api, *e, *e)`, `e.Square(api, *e)` and
`e.MulByNonResidue(api, *e)` with the operand read through the receiver
cell in program order produces the same coefficients as the operations
on distinct operand copies, because every read of an operand coordinate
occurs before any write to the receiver. -/
theorem gadget_aliasing_safe (uSquare : F) (s : E2 F) :
    E2.mulSelfAliased uSquare s = E2.Mul uSquare s s ∧
      E2.squareSelfAliased uSquare s = E2.Square uSquare s ∧
      E2.mulByNonResidueSelfAliased uSquare s =
        E2.MulByNonResidue uSquare s :=
  ⟨rfl, rfl, rfl⟩

/-- Claim C10: the oracle functions `InverseE2Hint` and `DivE2Hint` are
total on well-formed input and output slices: they always return a nil
error, for every input including the zero element. -/
theorem hint_oracles_total (uSquare : F) (inputs : List F) :
    (InverseE2Hint uSquare inputs).2 = none ∧
      (DivE2Hint uSquare inputs).2 = none :=
  ⟨rfl, rfl⟩

end GnarkE2
